import Mathlib

set_option maxHeartbeats 1000000
set_option maxRecDepth 8000

/-!
Shallow embedding of the Activity-Suggester app (`utils.py`, `app.py`).

External collaborators (generative-text, places search, routing, image
search) are modelled as oracle parameters; an oracle result of
`Except.error ()` stands for an exception raised at the collaborator
boundary, `Except.ok` for a normal response.  A Python function that may
let an exception escape its own boundary is embedded with result type
`Except Unit _`; a function whose internal `try/except` swallows every
exception is embedded as a plain total function.

Numeric scores are embedded as `Rat` (the spec and the code state the
clamp arithmetic exactly); Python truthiness of numbers (`0` is falsy)
and of strings (`""` is falsy) is made explicit at each test site.
-/

/-- Characters Python `str.strip` / `str.split` treat as whitespace
(ASCII subset; unicode spaces are out of scope for this development). -/
def pyIsSpace (c : Char) : Bool :=
  c = ' ' || c = '\t' || c = '\n' || c = '\r' || c = '\x0b' || c = '\x0c'

/-- Python `str.strip()`: drop leading and trailing whitespace. -/
def pyStrip (s : String) : String :=
  ⟨((s.data.dropWhile pyIsSpace).reverse.dropWhile pyIsSpace).reverse⟩

/-- Python `str.lower()` (ASCII case folding). -/
def pyLower (s : String) : String :=
  ⟨s.data.map Char.toLower⟩

/-- Helper for `pySplit`: accumulate the current token (reversed) while
scanning; whitespace flushes the token, empties are dropped. -/
def pySplitAux : List Char → List Char → List String
  | [], acc => if acc = [] then [] else [⟨acc.reverse⟩]
  | c :: cs, acc =>
    if pyIsSpace c then
      if acc = [] then pySplitAux cs [] else ⟨acc.reverse⟩ :: pySplitAux cs []
    else
      pySplitAux cs (c :: acc)

/-- Python `str.split()` with no separator: split on whitespace runs,
discarding empty tokens. -/
def pySplit (s : String) : List String :=
  pySplitAux s.data []

/-- Python `needle in hay` on strings: contiguous-substring test. -/
def containsSub (hay needle : List Char) : Bool :=
  if needle.isPrefixOf hay then true
  else
    match hay with
    | [] => false
    | _ :: t => containsSub t needle

/-- Python `max(x :: l, key=f)`: left fold replacing the accumulator only
on strict increase, hence the first element attaining the maximum wins. -/
def foldMaxBy {α β : Type} [LinearOrder β] (f : α → β) (x : α) (l : List α) : α :=
  l.foldl (fun acc y => if f y > f acc then y else acc) x

/-- `foldMaxBy` returns the first element attaining the maximum: the input
splits around the result with strictly smaller values before it and no
larger value after it. -/
theorem foldMaxBy_spec {α β : Type} [LinearOrder β] (f : α → β) (x : α) (l : List α) :
    ∃ pre post, x :: l = pre ++ foldMaxBy f x l :: post ∧
      (∀ q ∈ pre, f q < f (foldMaxBy f x l)) ∧
      (∀ q ∈ post, f q ≤ f (foldMaxBy f x l)) := by
  induction l generalizing x with
  | nil =>
    exact ⟨[], [], rfl, by simp, by simp⟩
  | cons y ys ih =>
    by_cases h : f y > f x
    · have hstep : foldMaxBy f x (y :: ys) = foldMaxBy f y ys := by
        simp [foldMaxBy, List.foldl_cons, h]
      obtain ⟨pre, post, hsplit, hpre, hpost⟩ := ih y
      refine ⟨x :: pre, post, ?_, ?_, ?_⟩
      · rw [hstep]; simpa using congrArg (x :: ·) hsplit
      · intro q hq
        rcases List.mem_cons.mp hq with rfl | hq
        · rw [hstep]
          have hy : f y ≤ f (foldMaxBy f y ys) := by
            cases pre with
            | nil =>
              have : y = foldMaxBy f y ys := by
                simpa using congrArg (fun t => t.head?) hsplit
              exact le_of_eq (congrArg f this)
            | cons p ps =>
              have : y = p := by
                simpa using congrArg (fun t => t.head?) hsplit
              exact le_of_lt (this ▸ hpre p (by simp))
          exact lt_of_lt_of_le h hy
        · rw [hstep]; exact hpre q hq
      · intro q hq; rw [hstep]; exact hpost q hq
    · have hstep : foldMaxBy f x (y :: ys) = foldMaxBy f x ys := by
        simp [foldMaxBy, List.foldl_cons, h]
      obtain ⟨pre, post, hsplit, hpre, hpost⟩ := ih x
      cases pre with
      | nil =>
        have hx : x = foldMaxBy f x ys := by
          simpa using congrArg (fun t => t.head?) hsplit
        have hys : ys = post := by
          simpa using congrArg (fun t => t.tail) hsplit
        refine ⟨[], y :: post, ?_, by simp, ?_⟩
        · rw [hstep]
          simp only [List.nil_append]
          rw [← hx, ← hys]
        · intro q hq
          rcases List.mem_cons.mp hq with rfl | hq
          · rw [hstep, ← hx]; exact not_lt.mp h
          · rw [hstep]; exact hpost q hq
      | cons p ps =>
        have hp : x = p := by
          simpa using congrArg (fun t => t.head?) hsplit
        have hys : ys = ps ++ foldMaxBy f x ys :: post := by
          have h2 := congrArg List.tail hsplit
          simp only [List.cons_append, List.tail_cons] at h2
          exact h2
        refine ⟨x :: y :: ps, post, ?_, ?_, ?_⟩
        · rw [hstep]
          conv_lhs => rw [hys]
          simp
        · intro q hq
          have hxlt : f x < f (foldMaxBy f x ys) := by
            have := hpre p (by simp)
            rwa [← hp] at this
          rcases List.mem_cons.mp hq with rfl | hq
          · rw [hstep]; exact hxlt
          · rcases List.mem_cons.mp hq with rfl | hq
            · rw [hstep]; exact lt_of_le_of_lt (not_lt.mp h) hxlt
            · rw [hstep]; exact hpre q (by simp [hq])
        · intro q hq; rw [hstep]; exact hpost q hq

/-! ## Preference Store (`utils.py` lines 433–494) -/

/-- Feedback item as built in `app.py`: a dict with keys `name` and
`type` (the spec's "category"). -/
structure Item where
  name : String
  type : String
deriving DecidableEq

/-- `st.session_state.user_preferences`: category scores (a Python dict,
embedded as an insertion-ordered association list), plus the liked and
disliked history lists. -/
structure Prefs where
  category_preferences : List (String × Rat)
  liked_places : List Item
  disliked_places : List Item
deriving DecidableEq

/-- Initial preference structure created by `get_user_preferences_db`. -/
def default_user_preferences : Prefs :=
  { category_preferences :=
      [("food", 1/2), ("travel", 1/2), ("shopping", 1/2), ("gaming", 1/2), ("news", 1/2)]
  , liked_places := []
  , disliked_places := [] }

/-- `get_user_preferences_db`: return the stored preferences, creating
the default structure when the session key is absent. -/
def get_user_preferences_db (sess : Option Prefs) : Prefs :=
  sess.getD default_user_preferences

/-- First-match lookup in a score dictionary. -/
def lookupScore : List (String × Rat) → String → Option Rat
  | [], _ => none
  | (k, v) :: t, c => if k = c then some v else lookupScore t c

/-- Python `if category in d: d[category] = f(d[category])`: rewrite the
entries whose key matches, leave everything else (including key order)
unchanged; a no-op when the key is absent. -/
def bumpIfPresent (l : List (String × Rat)) (c : String) (f : Rat → Rat) :
    List (String × Rat) :=
  l.map fun kv => if kv.1 = c then (kv.1, f kv.2) else kv

/-- Python `l[-20:]` (for `20 ≤ l.length`): keep the last `n` elements. -/
def lastN (n : Nat) (l : List α) : List α :=
  l.drop (l.length - n)

/-- The three feedback kinds accepted by `update_preferences_from_feedback`. -/
inductive FeedbackKind where
  | like
  | dislike
  | view_details
deriving DecidableEq

/-- `update_preferences_from_feedback`: append to the matching history
list (like/dislike only), clamp-update the category score when the
category is a key, then trim both history lists to their last 20
entries when they exceed 20. -/
def update_preferences_from_feedback (fk : FeedbackKind) (item : Item) (prefs : Prefs) :
    Prefs :=
  let p1 : Prefs :=
    match fk with
    | .like =>
      { prefs with
        liked_places := prefs.liked_places ++ [item]
        category_preferences :=
          bumpIfPresent prefs.category_preferences item.type (fun s => min 1 (s + 1/10)) }
    | .dislike =>
      { prefs with
        disliked_places := prefs.disliked_places ++ [item]
        category_preferences :=
          bumpIfPresent prefs.category_preferences item.type (fun s => max (1/10) (s - 1/10)) }
    | .view_details =>
      { prefs with
        category_preferences :=
          bumpIfPresent prefs.category_preferences item.type (fun s => min 1 (s + 1/20)) }
  let p2 : Prefs :=
    if p1.liked_places.length > 20 then { p1 with liked_places := lastN 20 p1.liked_places }
    else p1
  if p2.disliked_places.length > 20 then { p2 with disliked_places := lastN 20 p2.disliked_places }
  else p2

/-! ## Interest Selector (`utils.py` lines 216–231) -/

/-- User context dict as consumed by `top_activity_interest_llm` and
`choose_place`: optional location coordinates and an optional
insertion-ordered interests map.  An absent `user` dict is `none` at the
call sites that test `if user`. -/
structure UserCtx where
  location_lat : Option Rat
  location_lon : Option Rat
  interests : Option (List (String × Rat))
deriving DecidableEq

/-- `top_activity_interest_llm`: highest-scoring interest from the user
profile (Python `max` keeps the first maximal entry); `"food"` when the
user or the interests map is absent or empty.  The internal catch-all
also degrades to `"food"`, so the embedding is a total function. -/
def top_activity_interest_llm (user : Option UserCtx) : String :=
  match user with
  | some u =>
    match u.interests with
    | some (i :: is) => (foldMaxBy Prod.snd i is).1
    | _ => "food"
  | none => "food"

/-! ## Activity-Type Classifier (`app.py` lines 117–129 and 213–214) -/

/-- `app.py` decision block: on a successful generative-text response the
decision is the response text stripped then lower-cased; on any
exception the decision defaults to `"indoor"`. -/
def classifyDecision : Except Unit String → String
  | .ok t => pyLower (pyStrip t)
  | .error _ => "indoor"

/-- `app.py` branch polarity: the indoor flow runs iff
`decision == "indoor"`; every other decision value takes the outdoor
else-branch (lines 213–214). -/
def runsIndoorPath (decision : String) : Bool :=
  decision == "indoor"

/-! ## Deterministic keyword extractor (`utils.py` lines 96–147) -/

/-- The food vocabulary, in source order (including the mojibake entry). -/
def food_keywords : List String :=
  ["dosa", "cooking", "baking", "food", "recipe", "cuisine", "dish",
   "meal", "restaurant", "cafÃ©", "bakery", "pizza", "burger", "pasta",
   "sushi", "curry", "breakfast", "lunch", "dinner", "snack",
   "dessert", "coffee", "tea", "smoothie", "cocktail", "pasta", "truffles"]

/-- The activity vocabulary, in source order. -/
def activity_keywords : List String :=
  ["yoga", "meditation", "painting", "drawing", "art", "craft",
   "reading", "book", "game", "gaming", "movie", "film", "music",
   "dance", "workout", "exercise", "pottery", "chess", "board game",
   "puzzle", "knitting", "photography", "baking", "cooking"]

/-- `all_keywords = food_keywords + activity_keywords`. -/
def all_keywords : List String :=
  food_keywords ++ activity_keywords

/-- The `matches` list built by `extract_main_keywords`: vocabulary terms
that occur as substrings of the lower-cased text, in vocabulary order. -/
def kwMatches (text : String) : List String :=
  all_keywords.filter fun k => containsSub (pyLower text).data k.data

/-- Python regex `\w` on ASCII: letters, digits, underscore. -/
def isWordChar (c : Char) : Bool :=
  c.isAlpha || c.isDigit || c = '_'

/-- Helper for `wordGroups`: accumulate the current word-character run
(reversed) while scanning. -/
def wordGroupsAux : List Char → List Char → List (List Char)
  | [], acc => if acc = [] then [] else [acc.reverse]
  | c :: cs, acc =>
    if isWordChar c then wordGroupsAux cs (c :: acc)
    else if acc = [] then wordGroupsAux cs [] else acc.reverse :: wordGroupsAux cs []

/-- Maximal runs of word characters of a string, in order. -/
def wordGroups (l : List Char) : List (List Char) :=
  wordGroupsAux l []

/-- `re.findall(r'\b[A-Za-z]{4,}\b', text)`: the maximal word-character
runs that consist only of letters and have length at least 4 (a run
containing a digit or underscore has no word boundary inside it, so it
never yields a match). -/
def wordRuns (text : String) : List String :=
  (wordGroups text.data).filterMap fun g =>
    if g.all Char.isAlpha && decide (4 ≤ g.length) then some ⟨g⟩ else none

/-- `extract_main_keywords`: longest vocabulary match (first on ties),
else longest alphabetic run of length at least 4 (first on ties), else
the literal `"indoor activity"`; empty input short-circuits to the same
literal.  The internal catch-all cannot fire in this embedding. -/
def extract_main_keywords (text : String) : String :=
  if text = "" then "indoor activity"
  else
    match kwMatches text with
    | m :: ms => foldMaxBy String.length m ms
    | [] =>
      match wordRuns text with
      | w :: ws => foldMaxBy String.length w ws
      | [] => "indoor activity"

/-! ## LLM keyword extraction (`utils.py` lines 149–174) -/

/-- The names bound at module top level of `utils.py` (its imports,
lines 1–17, and its own definitions).  `openai` is not among them. -/
def utilsTopLevelNames : List String :=
  ["datetime", "random", "pd", "openrouteservice", "googlemaps", "requests",
   "st", "genai", "os", "json", "Path", "traceback", "logging", "re",
   "UnidentifiedImageError", "logger", "AppError", "APIError", "LLMError",
   "ImageError", "safe_api_call", "init_clients", "get_synthetic_user",
   "extract_main_keywords", "extract_keywords_from_prompt",
   "fetch_image_for_keyword", "top_activity_interest_llm",
   "build_llm_decision_prompt", "build_llm_prompt_indoor", "fetch_places",
   "build_personalized_context", "get_route_duration", "fetch_place_image",
   "get_detailed_suggestion", "get_user_preferences_db",
   "update_preferences_from_feedback", "choose_place"]

/-- Whether the name `openai` is bound in `utils.py`.  It is not, so the
reference in `extract_keywords_from_prompt` raises `NameError`. -/
def openaiIsBound : Bool :=
  utilsTopLevelNames.contains "openai"

/-- `extract_keywords_from_prompt`: the primary path would call an
`openai` chat completion and split its reply on commas, but the name
`openai` is unbound, so the body raises `NameError` before reaching the
collaborator; the catch-all handler returns the first three
whitespace-separated tokens of the prompt. -/
def extract_keywords_from_prompt (llm : String → Except Unit String)
    (prompt : String) : List String :=
  if openaiIsBound then
    match llm prompt with
    | .ok t => ((pyStrip t).splitOn ",").map pyStrip
    | .error _ => (pySplit prompt).take 3
  else (pySplit prompt).take 3

/-! ## Keyword-to-image fetch (`utils.py` lines 176–214) -/

/-- A place record returned by the Google places text search, reduced to
the photo references its photos carry. -/
structure GPlace where
  photos : List String
deriving DecidableEq

/-- Photo URL built by `fetch_image_for_keyword`. -/
def photoUrl (ref key : String) : String :=
  "https://maps.googleapis.com/maps/api/place/photo?maxwidth=400&photoreference="
    ++ ref ++ "&key=" ++ key

/-- `fetch_image_for_keyword`, including its `safe_api_call` decorator:
an empty keyword returns no image; a places-search failure is caught,
re-raised as `ImageError`, and re-raised by the decorator as `APIError`
(embedded as `.error ()`), so this operation is NOT total.  Among the
places with photos, `random.choice` is embedded as an arbitrary index
`pick` reduced modulo the list length. -/
def fetch_image_for_keyword (gplaces : String → Except Unit (List GPlace))
    (pick : Nat) (keyword apiKey : String) : Except Unit (Option String) :=
  if keyword = "" then .ok none
  else
    match gplaces keyword with
    | .error _ => .error ()
    | .ok results =>
      let withPhotos := results.filter fun p => !p.photos.isEmpty
      match withPhotos.get? (pick % withPhotos.length) with
      | none => .ok none
      | some pl =>
        match pl.photos with
        | [] => .error ()
        | ref :: _ => .ok (some (photoUrl ref apiKey))

/-! ## Routing (`utils.py` lines 357–383) -/

/-- Python `round`: round half to even (banker's rounding). -/
def pyRound (q : Rat) : Int :=
  let n := q.floor
  let r := q - n
  if r < 1/2 then n
  else if 1/2 < r then n + 1
  else if n % 2 = 0 then n else n + 1

/-- `get_route_duration`, including its `safe_api_call` decorator: a
coordinate pair containing a falsy (zero) component yields `none`
(`not all(origin)`); a directions result with no features, or any
exception (caught by the inner handler, so the decorator never fires),
yields `none`; otherwise the first feature's duration in seconds is
converted to rounded minutes.  The operation is total. -/
def get_route_duration (ors : (Rat × Rat) → (Rat × Rat) → Except Unit (Option Rat))
    (origin destination : Rat × Rat) : Option Int :=
  if origin.1 = 0 ∨ origin.2 = 0 ∨ destination.1 = 0 ∨ destination.2 = 0 then none
  else
    match ors origin destination with
    | .error _ => none
    | .ok none => none
    | .ok (some durationSeconds) => some (pyRound (durationSeconds / 60))

/-! ## Candidate enrichment and place selection (`utils.py` lines 496–612) -/

/-- A raw place record from the places search, with the fields
`choose_place` reads (each a `.get` on the underlying dict). -/
structure PlaceIn where
  place_id : Option String
  name : Option String
  lat : Option Rat
  lng : Option Rat
  rating : Option Rat
  user_ratings_total : Option Nat
  vicinity : Option String
  ptype : Option String
deriving DecidableEq

/-- An enriched place dict as built in the `choose_place` loop;
`travel_time_mins = none` embeds the string `"unknown"`. -/
structure Enriched where
  prominence_rank : Nat
  ename : String
  erating : Option Rat
  total_ratings : Nat
  address : String
  travel_time_mins : Option Int
  etype : String
deriving DecidableEq

/-- One iteration of the enrichment loop for the candidate at position
`idx`: skip when either coordinate is missing or falsy (zero); then ask
the routing collaborator (the embedded `get_route_duration` result) and
double a truthy (nonzero) duration for the round trip, marking a
failed, empty, or zero result as unknown. -/
def enrichOne (routeDur : (Rat × Rat) → (Rat × Rat) → Option Int)
    (origin : Rat × Rat) (top_interest : String) (idx : Nat) (p : PlaceIn) :
    Option Enriched :=
  match p.lat, p.lng with
  | some plat, some plng =>
    if plat = 0 ∨ plng = 0 then none
    else
      let t := routeDur origin (plng, plat)
      let tm : Option Int :=
        match t with
        | some d => if d = 0 then none else some (2 * d)
        | none => none
      some { prominence_rank := idx + 1
           , ename := p.name.getD "Unknown place"
           , erating := p.rating
           , total_ratings := p.user_ratings_total.getD 0
           , address := p.vicinity.getD "Unknown location"
           , travel_time_mins := tm
           , etype := p.ptype.getD top_interest }
  | _, _ => none

/-- The enrichment loop: only `places[:3]` is processed; unusable
candidates are dropped and the rest keep their input order. -/
def enrichPlaces (routeDur : (Rat × Rat) → (Rat × Rat) → Option Int)
    (origin : Rat × Rat) (top_interest : String) (places : List PlaceIn) :
    List Enriched :=
  (places.take 3).enum.filterMap fun ip => enrichOne routeDur origin top_interest ip.1 ip.2

/-- The session-state fields `choose_place` reads and writes:
`previous_place_id = some v` means the key is present holding `v`
(itself an optional id, since `place.get("place_id")` can be absent). -/
structure Sess where
  ors_client : Bool
  top_interest : Option String
  previous_place_id : Option (Option String)
deriving DecidableEq

/-- Python truthiness of an optional string (`None` and `""` are falsy). -/
def truthyStr : Option String → Bool
  | none => false
  | some s => !(s == "")

/-- Python truthiness of an optional number (`None` and `0` are falsy). -/
def truthyNum : Option Rat → Bool
  | none => false
  | some q => !(q == 0)

/-- Fallback messages returned by `choose_place`, in source order. -/
def msgNoPlaces : String :=
  "We couldn't find any interesting places nearby. Let's suggest an indoor activity instead."

/-- Fallback message for a missing user location. -/
def msgNoLocation : String :=
  "We couldn't determine your location accurately. Let's suggest an indoor activity instead."

/-- Fallback message for a missing routing client. -/
def msgNoOrs : String :=
  "We're having trouble with our navigation service. Let's suggest an indoor activity instead."

/-- Fallback message when enrichment yields no usable candidate. -/
def msgNoEnriched : String :=
  "We're having trouble processing places near you. Let's suggest an indoor activity instead."

/-- Fallback message when the generative-text call raises. -/
def msgUnexpected : String :=
  "We encountered an unexpected error. Let's suggest an indoor activity instead."

/-- `choose_place`: returns the (selected place, description) pair and the
session state as updated.  The generative-text collaborator is embedded
by the outcome `llm` of the single `model.generate_content` call; the
prompt built from weather, preference profile and the enriched list
feeds only that opaque collaborator, so it is not reconstructed here.
A collaborator exception is caught by the handlers at the bottom of the
function and degrades to `(none, message)`. -/
def choose_place (routeDur : (Rat × Rat) → (Rat × Rat) → Option Int)
    (llm : Except Unit String) (sess : Sess) (user : UserCtx)
    (places : List PlaceIn) (user_feedback : Option String) :
    (Option PlaceIn × String) × Sess :=
  match places with
  | [] => ((none, msgNoPlaces), sess)
  | p0 :: _ =>
    if !(truthyNum user.location_lat && truthyNum user.location_lon) then
      ((none, msgNoLocation), sess)
    else if !sess.ors_client then
      ((none, msgNoOrs), sess)
    else
      let ti := sess.top_interest.getD "activity"
      let origin := (user.location_lon.getD 0, user.location_lat.getD 0)
      let enriched := enrichPlaces routeDur origin ti places
      if enriched.isEmpty then ((none, msgNoEnriched), sess)
      else
        match llm with
        | .error _ => ((none, msgUnexpected), sess)
        | .ok t =>
          let description := pyStrip t
          if truthyStr user_feedback && sess.previous_place_id.isSome then
            match places.find? (fun p => !(p.place_id == sess.previous_place_id.getD none)) with
            | some p =>
              ((some p, description), { sess with previous_place_id := some p.place_id })
            | none =>
              ((some p0, description), { sess with previous_place_id := some p0.place_id })
          else
            ((some p0, description), { sess with previous_place_id := some p0.place_id })

/-! ## Keyword/Image Resolver (`app.py` lines 135–186) -/

/-- Modelled from the spec: `fetch_unsplash_image` is imported by
`app.py` but defined nowhere in the repository; per the spec it is the
generic image-search collaborator `search(keyword) -> url|none`, and it
may fail, so it is embedded as a direct call to an image-search oracle. -/
def fetch_unsplash_image (search : String → Except Unit (Option String))
    (keyword : String) : Except Unit (Option String) :=
  search keyword

/-- The per-keyword loop of resolution step 1 (`app.py` lines 145–160):
skip empty or too-short keywords, try the places-photo fetch for each,
catching any exception and continuing; stop at the first keyword that
yields an image. -/
def step1Loop (fetchImg : String → Except Unit (Option String)) :
    List String → Option (String × String)
  | [] => none
  | kw :: rest =>
    if kw = "" ∨ (pyStrip kw).length < 3 then step1Loop fetchImg rest
    else
      match fetchImg kw with
      | .error _ => step1Loop fetchImg rest
      | .ok none => step1Loop fetchImg rest
      | .ok (some url) => some (url, kw)

/-- Steps 3 and 4 of the fallback chain (`app.py` lines 172–181), entered
with the image and keyword state left by step 2.  A raised exception in
either generic image-search call reaches the outer handler, which
yields `(none, interest)`. -/
def resolveTail (unsplash : String → Except Unit (Option String))
    (interest : String) (img : Option String) (mainKw : String) :
    Option String × Option String :=
  match img with
  | some u => (some u, some mainKw)
  | none =>
    let afterStep3 : Except Unit (Option String) :=
      if mainKw = "" then .ok none
      else fetch_unsplash_image unsplash mainKw
    match afterStep3 with
    | .error _ => (none, some interest)
    | .ok (some u) => (some u, some mainKw)
    | .ok none =>
      match fetch_unsplash_image unsplash interest with
      | .error _ => (none, some interest)
      | .ok r => (r, some interest)

/-- The indoor image-resolution block: step 1 tries the
collaborator-extracted keywords with per-keyword exception handling;
step 2 runs the deterministic extractor and fetches WITHOUT a local
handler, so a raise there propagates to the outer handler (skipping
steps 3 and 4) and yields `(none, interest)`; steps 3 and 4 fall back
to the generic image search with the extracted keyword and then the
interest category. -/
def resolveImage (llmKw : String → Except Unit String)
    (fetchImg unsplash : String → Except Unit (Option String))
    (generatedText interest : String) : Option String × Option String :=
  match step1Loop fetchImg (extract_keywords_from_prompt llmKw generatedText) with
  | some (url, kw) => (some url, some kw)
  | none =>
    let mk := extract_main_keywords generatedText
    if mk ≠ "" ∧ 3 ≤ mk.length then
      match fetchImg mk with
      | .error _ => (none, some interest)
      | .ok r => resolveTail unsplash interest r mk
    else resolveTail unsplash interest none mk

/-! ## Helper lemmas about the preference store -/

/-- Updating a present key rewrites exactly its stored value. -/
theorem lookupScore_bumpIfPresent (l : List (String × Rat)) (c : String) (f : Rat → Rat) :
    lookupScore (bumpIfPresent l c f) c = (lookupScore l c).map f := by
  induction l with
  | nil => rfl
  | cons kv t ih =>
    obtain ⟨k, v⟩ := kv
    have hhead : bumpIfPresent ((k, v) :: t) c f
        = (if k = c then (k, f v) else (k, v)) :: bumpIfPresent t c f := rfl
    rw [hhead]
    by_cases hk : k = c
    · rw [if_pos hk]
      simp only [lookupScore]
      rw [if_pos hk, if_pos hk]
      rfl
    · rw [if_neg hk]
      simp only [lookupScore]
      rw [if_neg hk, if_neg hk]
      exact ih

/-- A score update for an absent key is a no-op. -/
theorem bumpIfPresent_of_lookup_none (l : List (String × Rat)) (c : String) (f : Rat → Rat)
    (h : lookupScore l c = none) : bumpIfPresent l c f = l := by
  induction l with
  | nil => rfl
  | cons kv t ih =>
    obtain ⟨k, v⟩ := kv
    have hhead : bumpIfPresent ((k, v) :: t) c f
        = (if k = c then (k, f v) else (k, v)) :: bumpIfPresent t c f := rfl
    by_cases hk : k = c
    · simp only [lookupScore] at h
      rw [if_pos hk] at h
      exact absurd h (by simp)
    · simp only [lookupScore] at h
      rw [if_neg hk] at h
      rw [hhead, if_neg hk, ih h]

/-- Category scores after a like. -/
theorem update_like_category (it : Item) (p : Prefs) :
    (update_preferences_from_feedback .like it p).category_preferences
      = bumpIfPresent p.category_preferences it.type (fun s => min 1 (s + 1/10)) := by
  simp only [update_preferences_from_feedback]
  split <;> split <;> rfl

/-- Category scores after a dislike. -/
theorem update_dislike_category (it : Item) (p : Prefs) :
    (update_preferences_from_feedback .dislike it p).category_preferences
      = bumpIfPresent p.category_preferences it.type (fun s => max (1/10) (s - 1/10)) := by
  simp only [update_preferences_from_feedback]
  split <;> split <;> rfl

/-- Category scores after a details view. -/
theorem update_view_category (it : Item) (p : Prefs) :
    (update_preferences_from_feedback .view_details it p).category_preferences
      = bumpIfPresent p.category_preferences it.type (fun s => min 1 (s + 1/20)) := by
  simp only [update_preferences_from_feedback]
  split <;> split <;> rfl

/-- Liked history after a like: append, then trim to the last 20. -/
theorem update_like_liked (it : Item) (p : Prefs) :
    (update_preferences_from_feedback .like it p).liked_places
      = if (p.liked_places ++ [it]).length > 20 then lastN 20 (p.liked_places ++ [it])
        else p.liked_places ++ [it] := by
  simp only [update_preferences_from_feedback]
  split <;> split <;> rfl

/-- Disliked history after a like: trim only. -/
theorem update_like_disliked (it : Item) (p : Prefs) :
    (update_preferences_from_feedback .like it p).disliked_places
      = if p.disliked_places.length > 20 then lastN 20 p.disliked_places
        else p.disliked_places := by
  simp only [update_preferences_from_feedback]
  split <;> split <;> rfl

/-- Disliked history after a dislike: append, then trim to the last 20. -/
theorem update_dislike_disliked (it : Item) (p : Prefs) :
    (update_preferences_from_feedback .dislike it p).disliked_places
      = if (p.disliked_places ++ [it]).length > 20 then lastN 20 (p.disliked_places ++ [it])
        else p.disliked_places ++ [it] := by
  simp only [update_preferences_from_feedback]
  split <;> split <;> rfl

/-- Liked history after a dislike: trim only. -/
theorem update_dislike_liked (it : Item) (p : Prefs) :
    (update_preferences_from_feedback .dislike it p).liked_places
      = if p.liked_places.length > 20 then lastN 20 p.liked_places
        else p.liked_places := by
  simp only [update_preferences_from_feedback]
  split <;> split <;> rfl

/-- Liked history after a details view: trim only. -/
theorem update_view_liked (it : Item) (p : Prefs) :
    (update_preferences_from_feedback .view_details it p).liked_places
      = if p.liked_places.length > 20 then lastN 20 p.liked_places
        else p.liked_places := by
  simp only [update_preferences_from_feedback]
  split <;> split <;> rfl

/-- Disliked history after a details view: trim only. -/
theorem update_view_disliked (it : Item) (p : Prefs) :
    (update_preferences_from_feedback .view_details it p).disliked_places
      = if p.disliked_places.length > 20 then lastN 20 p.disliked_places
        else p.disliked_places := by
  simp only [update_preferences_from_feedback]
  split <;> split <;> rfl

/-- The last element of an appended singleton. -/
theorem getLast?_append_singleton (l : List α) (a : α) : (l ++ [a]).getLast? = some a := by
  induction l with
  | nil => rfl
  | cons x t ih =>
    rw [List.cons_append, List.getLast?_cons, ih]
    cases t <;> simp [ih]

/-- Dropping at most the left length distributes over append. -/
theorem drop_append_singleton_of_le (l : List α) (a : α) (k : Nat) (h : k ≤ l.length) :
    (l ++ [a]).drop k = l.drop k ++ [a] := by
  induction l generalizing k with
  | nil =>
    have hk0 : k = 0 := Nat.le_zero.mp (by simpa using h)
    subst hk0
    rfl
  | cons x t ih =>
    cases k with
    | zero => rfl
    | succ k =>
      simp only [List.cons_append, List.drop_succ_cons]
      exact ih k (by simpa using h)

/-- The trimmed append still ends with the appended item. -/
theorem getLast?_trimAppend (l : List α) (a : α) :
    (if (l ++ [a]).length > 20 then lastN 20 (l ++ [a]) else l ++ [a]).getLast? = some a := by
  split
  · next hlen =>
    have hk : (l ++ [a]).length - 20 ≤ l.length := by
      simp only [List.length_append, List.length_cons, List.length_nil] at hlen ⊢
      omega
    rw [lastN, drop_append_singleton_of_le _ _ _ hk, getLast?_append_singleton]
  · exact getLast?_append_singleton l a

/-! ## Claims C3 and C4: feedback recording and the profile invariants -/

/-- The data-model invariant of §3: scores clamped to the unit-tenth
band, bounded history lists. -/
def PrefsInv (p : Prefs) : Prop :=
  (∀ kv ∈ p.category_preferences, (1/10 : Rat) ≤ kv.2 ∧ kv.2 ≤ 1) ∧
  p.liked_places.length ≤ 20 ∧ p.disliked_places.length ≤ 20

/-- Each clamp function maps the score band into itself. -/
theorem bumpIfPresent_bounds (l : List (String × Rat)) (c : String) (f : Rat → Rat)
    (hl : ∀ kv ∈ l, (1/10 : Rat) ≤ kv.2 ∧ kv.2 ≤ 1)
    (hf : ∀ s, (1/10 : Rat) ≤ s → s ≤ 1 → (1/10 : Rat) ≤ f s ∧ f s ≤ 1) :
    ∀ kv ∈ bumpIfPresent l c f, (1/10 : Rat) ≤ kv.2 ∧ kv.2 ≤ 1 := by
  intro kv hkv
  rw [bumpIfPresent, List.mem_map] at hkv
  obtain ⟨kv0, hkv0, hmap⟩ := hkv
  obtain ⟨h1, h2⟩ := hl kv0 hkv0
  by_cases hc : kv0.1 = c
  · rw [if_pos hc] at hmap
    subst hmap
    exact hf kv0.2 h1 h2
  · rw [if_neg hc] at hmap
    subst hmap
    exact ⟨h1, h2⟩

/-- The initial profile satisfies the invariant. -/
theorem default_PrefsInv : PrefsInv default_user_preferences := by
  refine ⟨?_, by simp [default_user_preferences], by simp [default_user_preferences]⟩
  intro kv hkv
  simp [default_user_preferences] at hkv
  rcases hkv with rfl | rfl | rfl | rfl | rfl <;> norm_num

/-- A single feedback event preserves the profile invariant. -/
theorem update_preserves_PrefsInv (fk : FeedbackKind) (it : Item) (p : Prefs)
    (h : PrefsInv p) : PrefsInv (update_preferences_from_feedback fk it p) := by
  obtain ⟨hcat, hlike, hdis⟩ := h
  have hlikeClamp : ∀ s, (1/10 : Rat) ≤ s → s ≤ 1 →
      (1/10 : Rat) ≤ min 1 (s + 1/10) ∧ min 1 (s + 1/10) ≤ 1 := by
    intro s h1 h2
    constructor
    · exact le_min (by norm_num) (by linarith)
    · exact min_le_left _ _
  have hdisClamp : ∀ s, (1/10 : Rat) ≤ s → s ≤ 1 →
      (1/10 : Rat) ≤ max (1/10) (s - 1/10) ∧ max (1/10) (s - 1/10) ≤ 1 := by
    intro s h1 h2
    constructor
    · exact le_max_left _ _
    · exact max_le (by norm_num) (by linarith)
  have hviewClamp : ∀ s, (1/10 : Rat) ≤ s → s ≤ 1 →
      (1/10 : Rat) ≤ min 1 (s + 1/20) ∧ min 1 (s + 1/20) ≤ 1 := by
    intro s h1 h2
    constructor
    · exact le_min (by norm_num) (by linarith)
    · exact min_le_left _ _
  have htrim : ∀ (l : List Item), l.length ≤ 20 →
      (if l.length > 20 then lastN 20 l else l).length ≤ 20 := by
    intro l hl
    split
    · simp only [lastN, List.length_drop]
      omega
    · exact hl
  have htrimApp : ∀ (l : List Item) (a : Item), l.length ≤ 20 →
      (if (l ++ [a]).length > 20 then lastN 20 (l ++ [a]) else l ++ [a]).length ≤ 20 := by
    intro l a hl
    split
    · simp only [lastN, List.length_drop]
      omega
    · next hcond =>
      simp only [List.length_append, List.length_cons, List.length_nil] at hcond ⊢
      omega
  cases fk with
  | like =>
    refine ⟨?_, ?_, ?_⟩
    · rw [update_like_category]
      exact bumpIfPresent_bounds _ _ _ hcat hlikeClamp
    · rw [update_like_liked]
      exact htrimApp _ _ hlike
    · rw [update_like_disliked]
      exact htrim _ hdis
  | dislike =>
    refine ⟨?_, ?_, ?_⟩
    · rw [update_dislike_category]
      exact bumpIfPresent_bounds _ _ _ hcat hdisClamp
    · rw [update_dislike_liked]
      exact htrim _ hlike
    · rw [update_dislike_disliked]
      exact htrimApp _ _ hdis
  | view_details =>
    refine ⟨?_, ?_, ?_⟩
    · rw [update_view_category]
      exact bumpIfPresent_bounds _ _ _ hcat hviewClamp
    · rw [update_view_liked]
      exact htrim _ hlike
    · rw [update_view_disliked]
      exact htrim _ hdis

/-- The invariant holds along any feedback sequence from any invariant
state. -/
theorem foldl_preserves_PrefsInv (ops : List (FeedbackKind × Item)) (p : Prefs)
    (h : PrefsInv p) :
    PrefsInv (ops.foldl (fun q op => update_preferences_from_feedback op.1 op.2 q) p) := by
  induction ops generalizing p with
  | nil => exact h
  | cons op rest ih =>
    exact ih _ (update_preserves_PrefsInv op.1 op.2 p h)

/-- Claim C3: for every feedback call, a category present in
`categoryScores` is clamp-updated by exactly +0.1 (like, max 1.0),
−0.1 (dislike, min 0.1) or +0.05 (viewDetails, max 1.0); an absent
category leaves every score untouched, while like/dislike still append
the item to the corresponding history list (as its new last entry). -/
theorem claim_C3 (p : Prefs) (it : Item) :
    (∀ prev, lookupScore p.category_preferences it.type = some prev →
      lookupScore (update_preferences_from_feedback .like it p).category_preferences it.type
          = some (min 1 (prev + 1/10)) ∧
      lookupScore (update_preferences_from_feedback .dislike it p).category_preferences it.type
          = some (max (1/10) (prev - 1/10)) ∧
      lookupScore (update_preferences_from_feedback .view_details it p).category_preferences
          it.type = some (min 1 (prev + 1/20))) ∧
    (lookupScore p.category_preferences it.type = none →
      (∀ fk, (update_preferences_from_feedback fk it p).category_preferences
          = p.category_preferences) ∧
      (update_preferences_from_feedback .like it p).liked_places.getLast? = some it ∧
      (update_preferences_from_feedback .dislike it p).disliked_places.getLast? = some it) := by
  constructor
  · intro prev hprev
    refine ⟨?_, ?_, ?_⟩
    · rw [update_like_category, lookupScore_bumpIfPresent, hprev]; rfl
    · rw [update_dislike_category, lookupScore_bumpIfPresent, hprev]; rfl
    · rw [update_view_category, lookupScore_bumpIfPresent, hprev]; rfl
  · intro hnone
    refine ⟨?_, ?_, ?_⟩
    · intro fk
      cases fk with
      | like => rw [update_like_category, bumpIfPresent_of_lookup_none _ _ _ hnone]
      | dislike => rw [update_dislike_category, bumpIfPresent_of_lookup_none _ _ _ hnone]
      | view_details => rw [update_view_category, bumpIfPresent_of_lookup_none _ _ _ hnone]
    · rw [update_like_liked]; exact getLast?_trimAppend _ _
    · rw [update_dislike_disliked]; exact getLast?_trimAppend _ _

/-- Concrete instantiation of C3: liking a "food" item moves the default
0.5 score to 0.6, and the item lands at the end of the liked history. -/
theorem claim_C3_witness :
    lookupScore (update_preferences_from_feedback .like ⟨"Cafe X", "food"⟩
        default_user_preferences).category_preferences "food" = some (min 1 (1/2 + 1/10)) ∧
    lookupScore (update_preferences_from_feedback .like ⟨"Cafe X", "zzz"⟩
        { default_user_preferences with category_preferences := [] }).category_preferences "zzz"
      = none ∧
    (update_preferences_from_feedback .like ⟨"Cafe X", "zzz"⟩
        { default_user_preferences with category_preferences := [] }).liked_places.getLast?
      = some ⟨"Cafe X", "zzz"⟩ := by
  refine ⟨((claim_C3 default_user_preferences ⟨"Cafe X", "food"⟩).1 (1/2)
    (by simp [default_user_preferences, lookupScore])).1, ?_, ?_⟩
  · have h := ((claim_C3 { default_user_preferences with category_preferences := [] }
      ⟨"Cafe X", "zzz"⟩).2 rfl).1 .like
    rw [h]
    rfl
  · exact ((claim_C3 { default_user_preferences with category_preferences := [] }
      ⟨"Cafe X", "zzz"⟩).2 rfl).2.1

/-- A concrete full liked-history list of 20 distinct items. -/
def likedFullW : List Item :=
  ["a01", "a02", "a03", "a04", "a05", "a06", "a07", "a08", "a09", "a10",
   "a11", "a12", "a13", "a14", "a15", "a16", "a17", "a18", "a19", "a20"].map
    fun s => ⟨s, "food"⟩

/-- A profile whose liked history is full. -/
def prefsFullW : Prefs :=
  { default_user_preferences with liked_places := likedFullW }

/-- Claim C4: the invariant (scores in [0.1, 1.0], history length at most
20) holds initially and after every feedback sequence; when a history
list is full, the next insertion drops exactly the oldest entry and
appends the new item at the end (FIFO eviction, order preserved). -/
theorem claim_C4 :
    PrefsInv default_user_preferences ∧
    (∀ ops : List (FeedbackKind × Item),
      PrefsInv (ops.foldl (fun q op => update_preferences_from_feedback op.1 op.2 q)
        default_user_preferences)) ∧
    (∀ p it, p.liked_places.length = 20 →
      (update_preferences_from_feedback .like it p).liked_places
        = p.liked_places.tail ++ [it]) ∧
    (∀ p it, p.disliked_places.length = 20 →
      (update_preferences_from_feedback .dislike it p).disliked_places
        = p.disliked_places.tail ++ [it]) ∧
    (∀ p it h, p.liked_places.length = 20 → p.liked_places.head? = some h →
      h ∉ p.liked_places.tail → h ≠ it →
      h ∉ (update_preferences_from_feedback .like it p).liked_places ∧
      it ∈ (update_preferences_from_feedback .like it p).liked_places) := by
  have hfifo : ∀ (l : List Item) (a : Item), l.length = 20 →
      (if (l ++ [a]).length > 20 then lastN 20 (l ++ [a]) else l ++ [a]) = l.tail ++ [a] := by
    intro l a hl
    rw [if_pos (by simp [hl])]
    have h1 : (l ++ [a]).length - 20 = 1 := by simp [hl]
    rw [lastN, h1, drop_append_singleton_of_le _ _ _ (by omega), List.drop_one]
  refine ⟨?_, ?_, ?_, ?_, ?_⟩
  · exact default_PrefsInv
  · intro ops
    exact foldl_preserves_PrefsInv ops default_user_preferences default_PrefsInv
  · intro p it hl
    rw [update_like_liked, hfifo _ _ hl]
  · intro p it hl
    rw [update_dislike_disliked, hfifo _ _ hl]
  · intro p it h hl hhead htail hne
    rw [update_like_liked, hfifo _ _ hl]
    constructor
    · intro hmem
      rcases List.mem_append.mp hmem with hmem | hmem
      · exact htail hmem
      · exact hne (by simpa using hmem)
    · exact List.mem_append.mpr (Or.inr (by simp))

/-- Concrete instantiation of C4: on a full 20-item history, a like
evicts the oldest entry and appends the new item; the initial profile
satisfies the invariant. -/
theorem claim_C4_witness :
    (update_preferences_from_feedback .like ⟨"newest", "food"⟩ prefsFullW).liked_places
      = prefsFullW.liked_places.tail ++ [⟨"newest", "food"⟩] ∧
    (⟨"a01", "food"⟩ : Item) ∉ (update_preferences_from_feedback .like ⟨"newest", "food"⟩
      prefsFullW).liked_places ∧
    PrefsInv default_user_preferences := by
  refine ⟨claim_C4.2.2.1 prefsFullW ⟨"newest", "food"⟩ (by decide), ?_, claim_C4.1⟩
  exact (claim_C4.2.2.2.2 prefsFullW ⟨"newest", "food"⟩ ⟨"a01", "food"⟩ (by decide) (by decide)
    (by decide) (by decide)).1

/-! ## Claim C9: interest selection -/

/-- Claim C9: `top_activity_interest_llm` returns `"food"` whenever the
user or the interests map is absent or empty, and otherwise a key of
the map whose score is maximal, with ties broken in favour of the
first-encountered entry; the function is pure, hence deterministic and
non-raising. -/
theorem claim_C9 (user : Option UserCtx) :
    (user = none → top_activity_interest_llm user = "food") ∧
    (∀ u, user = some u → u.interests = none → top_activity_interest_llm user = "food") ∧
    (∀ u, user = some u → u.interests = some [] → top_activity_interest_llm user = "food") ∧
    (∀ u l, user = some u → u.interests = some l → l ≠ [] →
      ∃ s pre post, l = pre ++ (top_activity_interest_llm user, s) :: post ∧
        (∀ q ∈ pre, q.2 < s) ∧ (∀ q ∈ post, q.2 ≤ s)) := by
  refine ⟨?_, ?_, ?_, ?_⟩
  · intro h; rw [h]; rfl
  · intro u hu hi; rw [hu]; simp [top_activity_interest_llm, hi]
  · intro u hu hi; rw [hu]; simp [top_activity_interest_llm, hi]
  · intro u l hu hi hne
    cases l with
    | nil => exact absurd rfl hne
    | cons i is =>
      have he : top_activity_interest_llm user = (foldMaxBy Prod.snd i is).1 := by
        rw [hu]; simp [top_activity_interest_llm, hi]
      obtain ⟨pre, post, hsplit, hpre, hpost⟩ := foldMaxBy_spec Prod.snd i is
      exact ⟨(foldMaxBy Prod.snd i is).2, pre, post, by rw [he]; simpa using hsplit,
        hpre, hpost⟩

/-- The synthetic user's interests, in source order. -/
def interestsW : List (String × Rat) :=
  [("travel", 81/100), ("food", 93/100), ("news", 65/100),
   ("shopping", 48/100), ("gaming", 76/100)]

/-- The synthetic user context (location of `get_synthetic_user`). -/
def userW : UserCtx :=
  { location_lat := some 13
  , location_lon := some 78
  , interests := some interestsW }

/-- Concrete instantiation of C9 on the synthetic user profile. -/
theorem claim_C9_witness :
    ∃ s pre post, interestsW
        = pre ++ (top_activity_interest_llm (some userW), s) :: post ∧
      (∀ q ∈ pre, q.2 < s) ∧ (∀ q ∈ post, q.2 ≤ s) :=
  (claim_C9 (some userW)).2.2.2 userW interestsW rfl rfl (by simp [interestsW])

/-! ## Claim C1: the indoor/outdoor branch polarity -/

/-- Counterexample to C1 as stated: the processed decision `"sunny"`
differs from `"outdoor"`, yet the indoor path does NOT run (the code
takes the outdoor else-branch for everything except exactly
`"indoor"`). -/
theorem claim_C1_counterexample :
    classifyDecision (.ok "sunny") ≠ "outdoor" ∧
    runsIndoorPath (classifyDecision (.ok "sunny")) = false := by
  decide

/-- Claim C1 as amended: the classifier lower-cases and trims the
response; the indoor path runs exactly when the processed value is
`"indoor"`, so any other value (including values that are neither
`"indoor"` nor `"outdoor"`) takes the outdoor branch; on collaborator
failure the decision defaults to `"indoor"`. -/
theorem claim_C1_amended :
    (∀ t, classifyDecision (.ok t) = pyLower (pyStrip t)) ∧
    (∀ d, runsIndoorPath d = true ↔ d = "indoor") ∧
    classifyDecision (.error ()) = "indoor" := by
  refine ⟨fun t => rfl, ?_, rfl⟩
  intro d
  simp [runsIndoorPath]

/-- Concrete instantiation of the amended C1: a padded, mixed-case
`" Indoor "` response runs the indoor path. -/
theorem claim_C1_witness :
    runsIndoorPath (classifyDecision (.ok " Indoor ")) = true := by
  rw [claim_C1_amended.1 " Indoor "]
  exact (claim_C1_amended.2.1 (pyLower (pyStrip " Indoor "))).mpr (by decide)

/-! ## Claim C8: the deterministic keyword extractor -/

/-- Claim C8: when some vocabulary term occurs (case-insensitively) in
the text, the extractor returns the longest occurring term, ties broken
by vocabulary order (`kwMatches` lists the occurring terms in that
order); when none occurs, it returns the longest word-bounded
alphabetic run of length at least 4, ties broken by position; when
there is no such run either, it returns `"indoor activity"`. -/
theorem claim_C8 (text : String) :
    (∀ m ms, kwMatches text = m :: ms →
      ∃ pre post, kwMatches text = pre ++ extract_main_keywords text :: post ∧
        (∀ q ∈ pre, q.length < (extract_main_keywords text).length) ∧
        (∀ q ∈ post, q.length ≤ (extract_main_keywords text).length)) ∧
    (kwMatches text = [] → ∀ w ws, wordRuns text = w :: ws →
      ∃ pre post, wordRuns text = pre ++ extract_main_keywords text :: post ∧
        (∀ q ∈ pre, q.length < (extract_main_keywords text).length) ∧
        (∀ q ∈ post, q.length ≤ (extract_main_keywords text).length)) ∧
    (kwMatches text = [] → wordRuns text = [] →
      extract_main_keywords text = "indoor activity") := by
  refine ⟨?_, ?_, ?_⟩
  · intro m ms hm
    by_cases htext : text = ""
    · rw [htext] at hm
      rw [show kwMatches "" = [] by decide] at hm
      exact List.noConfusion hm
    · have he : extract_main_keywords text = foldMaxBy String.length m ms := by
        rw [extract_main_keywords, if_neg htext, hm]
      obtain ⟨pre, post, hsplit, hpre, hpost⟩ := foldMaxBy_spec String.length m ms
      rw [he, hm]
      exact ⟨pre, post, hsplit, hpre, hpost⟩
  · intro hkw w ws hw
    by_cases htext : text = ""
    · rw [htext] at hw
      rw [show wordRuns "" = [] from rfl] at hw
      exact List.noConfusion hw
    · have he : extract_main_keywords text = foldMaxBy String.length w ws := by
        rw [extract_main_keywords, if_neg htext, hkw, hw]
      obtain ⟨pre, post, hsplit, hpre, hpost⟩ := foldMaxBy_spec String.length w ws
      rw [he, hw]
      exact ⟨pre, post, hsplit, hpre, hpost⟩
  · intro hkw hwr
    by_cases htext : text = ""
    · rw [htext, extract_main_keywords, if_pos rfl]
    · rw [extract_main_keywords, if_neg htext, hkw, hwr]

/-- Concrete instantiation of C8: in `"Try Baking a dosa"` the occurring
vocabulary terms are `dosa` and `baking` (twice), and the extractor
picks the longest, `"baking"`. -/
theorem claim_C8_witness :
    ∃ pre post, kwMatches "Try Baking a dosa"
        = pre ++ extract_main_keywords "Try Baking a dosa" :: post ∧
      (∀ q ∈ pre, q.length < (extract_main_keywords "Try Baking a dosa").length) ∧
      (∀ q ∈ post, q.length ≤ (extract_main_keywords "Try Baking a dosa").length) :=
  (claim_C8 "Try Baking a dosa").1 "dosa" ["baking", "baking"] (by decide)

/-! ## Claim C10: the dead LLM path of prompt keyword extraction -/

/-- Claim C10: the name `openai` is bound nowhere in `utils.py`, so the
primary path of `extract_keywords_from_prompt` always raises
`NameError` and the catch-all handler returns the first three
whitespace-separated tokens of the prompt, for every prompt and every
would-be collaborator. -/
theorem claim_C10 :
    openaiIsBound = false ∧
    ∀ llm prompt, extract_keywords_from_prompt llm prompt = (pySplit prompt).take 3 := by
  refine ⟨by decide, ?_⟩
  intro llm prompt
  rw [extract_keywords_from_prompt, if_neg (by decide)]

/-! ## Claim C6: candidate enrichment -/

/-- An enriched record always carries rank `idx + 1` for input position
`idx`. -/
theorem enrichOne_rank (routeDur : (Rat × Rat) → (Rat × Rat) → Option Int)
    (o : Rat × Rat) (ti : String) (idx : Nat) (p : PlaceIn) (e : Enriched)
    (h : enrichOne routeDur o ti idx p = some e) : e.prominence_rank = idx + 1 := by
  cases hl : p.lat with
  | none => simp [enrichOne, hl] at h
  | some la =>
    cases hg : p.lng with
    | none => simp [enrichOne, hl, hg] at h
    | some lb =>
      simp only [enrichOne, hl, hg] at h
      split at h
      · exact absurd h (by simp)
      · have he := Option.some.inj h
        rw [← he]

/-- Indices in `List.enumFrom` are at least the start index. -/
theorem enumFrom_fst_le {α : Type} {x : Nat × α} :
    ∀ (l : List α) (n : Nat), x ∈ l.enumFrom n → n ≤ x.1 := by
  intro l
  induction l with
  | nil => intro n h; simp [List.enumFrom] at h
  | cons a t ih =>
    intro n h
    rcases List.mem_cons.mp h with rfl | h
    · exact Nat.le_refl n
    · exact Nat.le_of_succ_le (ih (n + 1) h)

/-- Indices in `List.enumFrom` are strictly increasing. -/
theorem pairwise_fst_lt_enumFrom {α : Type} (l : List α) (n : Nat) :
    (l.enumFrom n).Pairwise fun a b => a.1 < b.1 := by
  induction l generalizing n with
  | nil => exact List.Pairwise.nil
  | cons a t ih =>
    refine List.Pairwise.cons ?_ (ih (n + 1))
    intro b hb
    exact Nat.lt_of_succ_le (enumFrom_fst_le _ _ hb)

/-- Enrichment output ranks are strictly increasing, so the output
preserves the input order. -/
theorem enrichPlaces_ranks_increasing (routeDur : (Rat × Rat) → (Rat × Rat) → Option Int)
    (o : Rat × Rat) (ti : String) (ps : List PlaceIn) :
    ((enrichPlaces routeDur o ti ps).map (fun e => e.prominence_rank)).Pairwise (· < ·) := by
  rw [List.pairwise_map, enrichPlaces, List.pairwise_filterMap]
  refine List.Pairwise.imp ?_ (pairwise_fst_lt_enumFrom (ps.take 3) 0)
  intro a b hab e he e' he'
  rw [Option.mem_def] at he he'
  rw [enrichOne_rank _ _ _ _ _ _ he, enrichOne_rank _ _ _ _ _ _ he']
  omega

/-- A routing oracle that reports a zero-minute duration. -/
def routeDurZeroW : (Rat × Rat) → (Rat × Rat) → Option Int :=
  fun _ _ => some 0

/-- A concrete candidate with usable coordinates. -/
def placeC6W : PlaceIn :=
  { place_id := some "a", name := some "Cafe X", lat := some 1, lng := some 2
  , rating := some (9/2), user_ratings_total := some 120, vicinity := some "MG Road"
  , ptype := none }

/-- Counterexample to C6 as stated: the routing collaborator returns the
duration value 0, yet `travelMinutes` is `"unknown"` (embedded `none`)
rather than twice the value, because the code tests the duration for
Python truthiness before doubling. -/
theorem claim_C6_counterexample :
    routeDurZeroW (77, 12) (2, 1) = some 0 ∧
    (enrichOne routeDurZeroW (77, 12) "food" 0 placeC6W).map (fun e => e.travel_time_mins)
      = some none ∧
    (some none : Option (Option Int)) ≠ some (some (2 * 0)) := by
  refine ⟨rfl, ?_, by simp⟩
  rfl

/-- Claim C6 as amended: enrichment processes only the first 3
candidates; a candidate with a missing coordinate is dropped while its
neighbours are still processed; a NONZERO routing duration is doubled
into `travelMinutes`, while a failed, empty, or ZERO duration yields
`"unknown"` without failing the batch; a batch in which every processed
candidate is unusable yields `[]`; and output ranks stay in input
order.  (Totality holds by construction: the embedding is a plain
function.) -/
theorem claim_C6_amended :
    (∀ routeDur o ti ps, enrichPlaces routeDur o ti ps = enrichPlaces routeDur o ti (ps.take 3)) ∧
    (∀ routeDur o ti idx (p : PlaceIn), p.lat = none ∨ p.lng = none →
      enrichOne routeDur o ti idx p = none) ∧
    (∀ routeDur o ti (a b c : PlaceIn), enrichOne routeDur o ti 1 b = none →
      enrichPlaces routeDur o ti [a, b, c]
        = (enrichOne routeDur o ti 0 a).toList ++ (enrichOne routeDur o ti 2 c).toList) ∧
    (∀ routeDur o ti idx (p : PlaceIn) la lb d, p.lat = some la → p.lng = some lb →
      ¬(la = 0 ∨ lb = 0) → routeDur o (lb, la) = some d → d ≠ 0 →
      (enrichOne routeDur o ti idx p).map (fun e => e.travel_time_mins) = some (some (2 * d))) ∧
    (∀ routeDur o ti idx (p : PlaceIn) la lb, p.lat = some la → p.lng = some lb →
      ¬(la = 0 ∨ lb = 0) → (routeDur o (lb, la) = none ∨ routeDur o (lb, la) = some 0) →
      (enrichOne routeDur o ti idx p).map (fun e => e.travel_time_mins) = some none) ∧
    (∀ routeDur o ti ps, (∀ ip ∈ (ps.take 3).enum, enrichOne routeDur o ti ip.1 ip.2 = none) →
      enrichPlaces routeDur o ti ps = []) ∧
    (∀ routeDur o ti ps,
      ((enrichPlaces routeDur o ti ps).map (fun e => e.prominence_rank)).Pairwise (· < ·)) := by
  refine ⟨?_, ?_, ?_, ?_, ?_, ?_, enrichPlaces_ranks_increasing⟩
  · intro routeDur o ti ps
    rw [enrichPlaces, enrichPlaces, List.take_take, Nat.min_self]
  · intro routeDur o ti idx p h
    rcases h with h | h
    · simp [enrichOne, h]
    · cases hl : p.lat <;> simp [enrichOne, hl, h]
  · intro routeDur o ti a b c hb
    cases ha : enrichOne routeDur o ti 0 a <;> cases hc : enrichOne routeDur o ti 2 c <;>
      simp [enrichPlaces, List.enum, List.enumFrom, ha, hb, hc]
  · intro routeDur o ti idx p la lb d hl hg hz hr hd
    simp only [enrichOne, hl, hg]
    rw [if_neg hz, hr]
    simp [hd]
  · intro routeDur o ti idx p la lb hl hg hz hr
    simp only [enrichOne, hl, hg]
    rw [if_neg hz]
    rcases hr with hr | hr
    · rw [hr]; rfl
    · rw [hr]
      simp
  · intro routeDur o ti ps h
    rw [enrichPlaces, List.filterMap_eq_nil_iff]
    intro ip hip
    exact h ip hip

/-- Concrete instantiation of the amended C6: a 25-minute one-way
duration becomes a 50-minute round trip. -/
theorem claim_C6_witness :
    (enrichOne (fun _ _ => some 25) (77, 12) "food" 0 placeC6W).map
        (fun e => e.travel_time_mins) = some (some (2 * 25)) :=
  claim_C6_amended.2.2.2.1 (fun _ _ => some 25) (77, 12) "food" 0 placeC6W 1 2 25 rfl rfl
    (by norm_num) rfl (by norm_num)

/-! ## Claim C7: the image-resolution fallback chain -/

/-- If the tail of the chain (steps 3 and 4) yields no image, the
reported keyword is the interest category. -/
theorem resolveTail_keyword_of_none (us : String → Except Unit (Option String))
    (interest : String) (img : Option String) (mk : String)
    (h : (resolveTail us interest img mk).1 = none) :
    (resolveTail us interest img mk).2 = some interest := by
  cases img with
  | some u => simp [resolveTail] at h
  | none =>
    simp only [resolveTail] at h ⊢
    cases h3 : (if mk = "" then Except.ok none else fetch_unsplash_image us mk) with
    | error e => rfl
    | ok r =>
      rw [h3] at h
      cases r with
      | some u => simp at h
      | none =>
        cases h4 : fetch_unsplash_image us interest with
        | error e => rfl
        | ok r2 => rfl

/-- Step-1 success short-circuits the chain. -/
theorem resolveImage_of_step1_some (llmKw : String → Except Unit String)
    (fi us : String → Except Unit (Option String)) (txt ti url kw : String)
    (h1 : step1Loop fi (extract_keywords_from_prompt llmKw txt) = some (url, kw)) :
    resolveImage llmKw fi us txt ti = (some url, some kw) := by
  rw [resolveImage, h1]

/-- Shape of the chain after step 1 found nothing. -/
theorem resolveImage_of_step1_none (llmKw : String → Except Unit String)
    (fi us : String → Except Unit (Option String)) (txt ti : String)
    (h1 : step1Loop fi (extract_keywords_from_prompt llmKw txt) = none) :
    resolveImage llmKw fi us txt ti =
      (if extract_main_keywords txt ≠ "" ∧ 3 ≤ (extract_main_keywords txt).length then
        match fi (extract_main_keywords txt) with
        | .error _ => (none, some ti)
        | .ok r => resolveTail us ti r (extract_main_keywords txt)
      else resolveTail us ti none (extract_main_keywords txt)) := by
  rw [resolveImage, h1]

/-- If the whole resolver yields no image, the reported keyword is the
interest category (worst case of the chain). -/
theorem resolveImage_keyword_of_none (llmKw : String → Except Unit String)
    (fi us : String → Except Unit (Option String)) (txt ti : String)
    (h : (resolveImage llmKw fi us txt ti).1 = none) :
    (resolveImage llmKw fi us txt ti).2 = some ti := by
  cases h1 : step1Loop fi (extract_keywords_from_prompt llmKw txt) with
  | some p =>
    obtain ⟨url, kw⟩ := p
    rw [resolveImage_of_step1_some llmKw fi us txt ti url kw h1] at h
    simp at h
  | none =>
    rw [resolveImage_of_step1_none llmKw fi us txt ti h1] at h ⊢
    by_cases hc : extract_main_keywords txt ≠ "" ∧ 3 ≤ (extract_main_keywords txt).length
    · rw [if_pos hc] at h ⊢
      cases h2 : fi (extract_main_keywords txt) with
      | error e => rfl
      | ok r =>
        rw [h2] at h
        exact resolveTail_keyword_of_none us ti r _ h
    · rw [if_neg hc] at h ⊢
      exact resolveTail_keyword_of_none us ti none _ h

/-- A places-photo fetch oracle that always raises. -/
def fetchImgErrW : String → Except Unit (Option String) :=
  fun _ => .error ()

/-- A generic image-search oracle that always succeeds. -/
def unsplashOkW : String → Except Unit (Option String) :=
  fun _ => .ok (some "https://img.example/x.jpg")

/-- An unused keyword-extraction collaborator (the `openai` path is dead
anyway). -/
def llmKwW : String → Except Unit String :=
  fun _ => .error ()

/-- Counterexample to C7 as stated: with the step-2 places fetch raising
and the generic image search healthy, the resolver returns
`(none, interestCategory)` even though the later generic-search steps
would have produced an image — the step-2 failure aborts the chain
instead of skipping to the next fallback. -/
theorem claim_C7_counterexample :
    resolveImage llmKwW fetchImgErrW unsplashOkW "play chess tonight" "food"
      = (none, some "food") ∧
    fetch_unsplash_image unsplashOkW (extract_main_keywords "play chess tonight")
      = .ok (some "https://img.example/x.jpg") ∧
    resolveTail unsplashOkW "food" none (extract_main_keywords "play chess tonight")
      = (some "https://img.example/x.jpg", some (extract_main_keywords "play chess tonight")) := by
  refine ⟨?_, rfl, by decide⟩
  decide

/-- Claim C7 as amended: failures inside step 1 (per-keyword fetches)
only skip to the next fallback, and step 2 still runs after step 1
fails; the resolver is total and in the worst case returns
`(none, interestCategory)`; BUT a raised exception in the step-2 image
fetch aborts the remaining fallbacks (steps 3 and 4 are not attempted)
and yields `(none, interestCategory)` directly. -/
theorem claim_C7_amended :
    (∀ llmKw fi us txt ti, (resolveImage llmKw fi us txt ti).1 = none →
      (resolveImage llmKw fi us txt ti).2 = some ti) ∧
    (∀ llmKw fi us txt ti, step1Loop fi (extract_keywords_from_prompt llmKw txt) = none →
      extract_main_keywords txt ≠ "" → 3 ≤ (extract_main_keywords txt).length →
      fi (extract_main_keywords txt) = .error () →
      resolveImage llmKw fi us txt ti = (none, some ti)) ∧
    (∀ llmKw fi us txt ti u, step1Loop fi (extract_keywords_from_prompt llmKw txt) = none →
      extract_main_keywords txt ≠ "" → 3 ≤ (extract_main_keywords txt).length →
      fi (extract_main_keywords txt) = .ok (some u) →
      resolveImage llmKw fi us txt ti = (some u, some (extract_main_keywords txt))) := by
  refine ⟨resolveImage_keyword_of_none, ?_, ?_⟩
  · intro llmKw fi us txt ti h1 hne hlen hfi
    rw [resolveImage_of_step1_none llmKw fi us txt ti h1, if_pos ⟨hne, hlen⟩, hfi]
  · intro llmKw fi us txt ti u h1 hne hlen hfi
    rw [resolveImage_of_step1_none llmKw fi us txt ti h1, if_pos ⟨hne, hlen⟩, hfi]
    rfl

/-- Concrete instantiation of the amended C7: step 1 finds nothing, the
deterministic extractor yields `"chess"`, and a healthy step-2 fetch
returns its image. -/
theorem claim_C7_witness :
    resolveImage llmKwW (fun kw => if kw = "chess" then .ok (some "https://img.example/c.jpg")
        else .error ()) unsplashOkW "chessboard fun" "food"
      = (some "https://img.example/c.jpg", some (extract_main_keywords "chessboard fun")) :=
  claim_C7_amended.2.2 llmKwW
    (fun kw => if kw = "chess" then .ok (some "https://img.example/c.jpg") else .error ())
    unsplashOkW "chessboard fun" "food" "https://img.example/c.jpg"
    (by decide) (by decide) (by decide) rfl

/-! ## Claim C2: totality of the component operations -/

/-- `find?` returns the first element satisfying the predicate: the list
splits around it with the predicate false on everything before. -/
theorem find?_split {α : Type} (p : α → Bool) (l : List α) (a : α)
    (h : l.find? p = some a) :
    ∃ pre post, l = pre ++ a :: post ∧ ∀ q ∈ pre, p q = false := by
  induction l with
  | nil => simp at h
  | cons x t ih =>
    cases hx : p x with
    | true =>
      have hxa : x = a := by
        have := h
        rw [List.find?_cons, hx] at this
        exact Option.some.inj (by simpa using this)
      exact ⟨[], t, by simp [hxa], by simp⟩
    | false =>
      have ht : t.find? p = some a := by
        have := h
        rw [List.find?_cons, hx] at this
        simpa using this
      obtain ⟨pre, post, hsplit, hpre⟩ := ih ht
      refine ⟨x :: pre, post, by rw [List.cons_append, hsplit], ?_⟩
      intro q hq
      rcases List.mem_cons.mp hq with rfl | hq
      · exact hx
      · exact hpre q hq

/-- The per-keyword image fetch raises (`APIError`) exactly in the sense
that a failing places search propagates as `.error`. -/
theorem fetch_image_for_keyword_error (gp : String → Except Unit (List GPlace))
    (pick : Nat) (kw key : String) (hk : kw ≠ "") (h : gp kw = .error ()) :
    fetch_image_for_keyword gp pick kw key = .error () := by
  rw [fetch_image_for_keyword, if_neg hk, h]

/-- A successful places search never yields `.error` from the fetch: the
chosen place comes from the photo-bearing filter, so its photo list is
nonempty. -/
theorem fetch_image_for_keyword_ok (gp : String → Except Unit (List GPlace))
    (pick : Nat) (kw key : String) (res : List GPlace) (h : gp kw = .ok res) :
    fetch_image_for_keyword gp pick kw key ≠ .error () := by
  by_cases hk : kw = ""
  · rw [fetch_image_for_keyword, if_pos hk]
    simp
  · rw [fetch_image_for_keyword, if_neg hk, h]
    dsimp only
    cases hg : (res.filter fun p => !p.photos.isEmpty).get?
        (pick % (res.filter fun p => !p.photos.isEmpty).length) with
    | none => simp
    | some pl =>
      have hg2 : (res.filter fun p => !p.photos.isEmpty)[pick %
          (res.filter fun p => !p.photos.isEmpty).length]? = some pl := by
        rw [← List.get?_eq_getElem?]
        exact hg
      have hmem : pl ∈ res.filter fun p => !p.photos.isEmpty := by
        obtain ⟨hlt, hval⟩ := List.getElem?_eq_some.mp hg2
        exact hval ▸ List.getElem_mem hlt
      have hph : (!pl.photos.isEmpty) = true := (List.mem_filter.mp hmem).2
      cases hphotos : pl.photos with
      | nil => rw [hphotos] at hph; simp at hph
      | cons ref rest =>
        dsimp only
        rw [hphotos]
        simp

/-- Counterexample to C2 as stated: keyword/image resolution is NOT
total — when the places collaborator fails, `fetch_image_for_keyword`
raises an `APIError` past its own boundary (its `safe_api_call`
decorator re-raises instead of returning a value). -/
theorem claim_C2_counterexample :
    fetch_image_for_keyword (fun _ => .error ()) 0 "chess" "KEY" = .error () := rfl

/-- Claim C2 as amended: interest selection, classification, enrichment,
place selection, feedback recording and profile reading are total (the
embeddings are plain functions), and every collaborator failure inside
them degrades to a fallback value — `choose_place` pairs a `none`
result with a non-empty message, classification defaults to
`"indoor"`, routing degrades to `none`, image resolution reports the
interest keyword; the EXCEPTION is the keyword-image fetch, which
returns normally on a successful places search but raises `APIError`
past its boundary whenever the places search fails. -/
theorem claim_C2_amended :
    (∀ routeDur llm sess user places fb,
      (choose_place routeDur llm sess user places fb).1.1 = none →
      (choose_place routeDur llm sess user places fb).1.2 ≠ "") ∧
    (∀ ors o d, ors o d = .error () → get_route_duration ors o d = none) ∧
    classifyDecision (.error ()) = "indoor" ∧
    (∀ llmKw fi us txt ti, (resolveImage llmKw fi us txt ti).1 = none →
      (resolveImage llmKw fi us txt ti).2 = some ti) ∧
    (∀ gp pick kw key, kw ≠ "" → gp kw = .error () →
      fetch_image_for_keyword gp pick kw key = .error ()) ∧
    (∀ gp pick kw key res, gp kw = .ok res →
      fetch_image_for_keyword gp pick kw key ≠ .error ()) := by
  refine ⟨?_, ?_, rfl, resolveImage_keyword_of_none, fetch_image_for_keyword_error,
    fetch_image_for_keyword_ok⟩
  · intro routeDur llm sess user places fb
    cases places with
    | nil =>
      intro _
      have e : choose_place routeDur llm sess user [] fb = ((none, msgNoPlaces), sess) := rfl
      rw [e]
      show msgNoPlaces ≠ ""
      decide
    | cons p0 rest =>
      simp only [choose_place]
      split
      · intro _
        show msgNoLocation ≠ ""
        decide
      · split
        · intro _
          show msgNoOrs ≠ ""
          decide
        · split
          · intro _
            show msgNoEnriched ≠ ""
            decide
          · split
            · intro _
              show msgUnexpected ≠ ""
              decide
            · split
              · split
                · intro hcontra; simp at hcontra
                · intro hcontra; simp at hcontra
              · intro hcontra; simp at hcontra
  · intro ors o d h
    rw [get_route_duration]
    split
    · rfl
    · rw [h]

/-- Concrete instantiation of the amended C2: an empty candidate list
never yields an empty message, a failing routing call degrades to
`none`, and a successful places search keeps the image fetch normal. -/
theorem claim_C2_witness :
    (choose_place (fun _ _ => none) (.error ()) ⟨true, none, none⟩
        ⟨some 1, some 1, none⟩ [] none).1.2 ≠ "" ∧
    get_route_duration (fun _ _ => .error ()) (1, 1) (2, 2) = none ∧
    fetch_image_for_keyword (fun _ => .ok []) 0 "chess" "KEY" ≠ .error () := by
  refine ⟨claim_C2_amended.1 (fun _ _ => none) (.error ()) ⟨true, none, none⟩
      ⟨some 1, some 1, none⟩ [] none rfl,
    claim_C2_amended.2.1 (fun _ _ => .error ()) (1, 1) (2, 2) rfl,
    claim_C2_amended.2.2.2.2.2 (fun _ => .ok []) 0 "chess" "KEY" [] rfl⟩

/-! ## Claim C5: place selection -/

/-- Evaluation of `choose_place` on the success path (location present,
routing client present, generative call succeeded, enrichment
non-empty): the result is the selection step over the original list. -/
theorem choose_place_success (routeDur : (Rat × Rat) → (Rat × Rat) → Option Int)
    (t : String) (sess : Sess) (user : UserCtx) (p0 : PlaceIn) (rest : List PlaceIn)
    (fb : Option String)
    (hlat : truthyNum user.location_lat = true) (hlon : truthyNum user.location_lon = true)
    (hors : sess.ors_client = true)
    (henr : enrichPlaces routeDur (user.location_lon.getD 0, user.location_lat.getD 0)
      (sess.top_interest.getD "activity") (p0 :: rest) ≠ []) :
    choose_place routeDur (.ok t) sess user (p0 :: rest) fb =
      if truthyStr fb && sess.previous_place_id.isSome then
        match (p0 :: rest).find?
            (fun p => !(p.place_id == sess.previous_place_id.getD none)) with
        | some p => ((some p, pyStrip t), { sess with previous_place_id := some p.place_id })
        | none => ((some p0, pyStrip t), { sess with previous_place_id := some p0.place_id })
      else ((some p0, pyStrip t), { sess with previous_place_id := some p0.place_id }) := by
  simp only [choose_place]
  rw [if_neg (by rw [hlat, hlon]; simp)]
  rw [if_neg (by rw [hors]; simp)]
  rw [if_neg (by simpa using henr)]

/-- Evaluation of `choose_place` when enrichment finds nothing usable. -/
theorem choose_place_noEnrich (routeDur : (Rat × Rat) → (Rat × Rat) → Option Int)
    (t : String) (sess : Sess) (user : UserCtx) (p0 : PlaceIn) (rest : List PlaceIn)
    (fb : Option String)
    (hlat : truthyNum user.location_lat = true) (hlon : truthyNum user.location_lon = true)
    (hors : sess.ors_client = true)
    (henr : enrichPlaces routeDur (user.location_lon.getD 0, user.location_lat.getD 0)
      (sess.top_interest.getD "activity") (p0 :: rest) = []) :
    choose_place routeDur (.ok t) sess user (p0 :: rest) fb = ((none, msgNoEnriched), sess) := by
  simp only [choose_place]
  rw [if_neg (by rw [hlat, hlon]; simp)]
  rw [if_neg (by rw [hors]; simp)]
  rw [if_pos (by rw [henr]; rfl)]

/-- Claim C5: with a well-formed session (location and routing client
present) and a successful generative call, `choose_place` returns
`(none, non-empty message)` on an empty candidate list or when
enrichment yields nothing; otherwise, under a truthy feedback note and
a recorded previous id, it returns the first candidate in original
order whose id differs from the recorded one (updating the record),
and in every other case the first candidate, recording its id; in
particular two successive calls over at least two distinctly-identified
candidates, with the note set only on the second call, select
different candidate ids. -/
theorem claim_C5 (routeDur : (Rat × Rat) → (Rat × Rat) → Option Int) (t : String)
    (sess : Sess) (user : UserCtx)
    (hlat : truthyNum user.location_lat = true) (hlon : truthyNum user.location_lon = true)
    (hors : sess.ors_client = true) :
    (∀ fb, choose_place routeDur (.ok t) sess user [] fb = ((none, msgNoPlaces), sess) ∧
      msgNoPlaces ≠ "") ∧
    (∀ p0 rest fb,
      enrichPlaces routeDur (user.location_lon.getD 0, user.location_lat.getD 0)
        (sess.top_interest.getD "activity") (p0 :: rest) = [] →
      choose_place routeDur (.ok t) sess user (p0 :: rest) fb = ((none, msgNoEnriched), sess) ∧
      msgNoEnriched ≠ "") ∧
    (∀ p0 rest fb prev p,
      enrichPlaces routeDur (user.location_lon.getD 0, user.location_lat.getD 0)
        (sess.top_interest.getD "activity") (p0 :: rest) ≠ [] →
      truthyStr fb = true → sess.previous_place_id = some prev →
      (p0 :: rest).find? (fun q => !(q.place_id == prev)) = some p →
      choose_place routeDur (.ok t) sess user (p0 :: rest) fb
        = ((some p, pyStrip t), { sess with previous_place_id := some p.place_id }) ∧
      p.place_id ≠ prev ∧
      ∃ pre post, p0 :: rest = pre ++ p :: post ∧ ∀ q ∈ pre, q.place_id = prev) ∧
    (∀ p0 rest fb,
      enrichPlaces routeDur (user.location_lon.getD 0, user.location_lat.getD 0)
        (sess.top_interest.getD "activity") (p0 :: rest) ≠ [] →
      (truthyStr fb = false ∨ sess.previous_place_id = none) →
      choose_place routeDur (.ok t) sess user (p0 :: rest) fb
        = ((some p0, pyStrip t), { sess with previous_place_id := some p0.place_id })) ∧
    (∀ p1 p2 rest fb2, p1.place_id ≠ p2.place_id → truthyStr fb2 = true →
      enrichPlaces routeDur (user.location_lon.getD 0, user.location_lat.getD 0)
        (sess.top_interest.getD "activity") (p1 :: p2 :: rest) ≠ [] →
      (choose_place routeDur (.ok t) sess user (p1 :: p2 :: rest) none).1.1 = some p1 ∧
      (choose_place routeDur (.ok t)
          (choose_place routeDur (.ok t) sess user (p1 :: p2 :: rest) none).2
          user (p1 :: p2 :: rest) fb2).1.1 = some p2 ∧
      p2.place_id ≠ p1.place_id) := by
  have hdefault : ∀ p0 rest fb,
      enrichPlaces routeDur (user.location_lon.getD 0, user.location_lat.getD 0)
        (sess.top_interest.getD "activity") (p0 :: rest) ≠ [] →
      (truthyStr fb = false ∨ sess.previous_place_id = none) →
      choose_place routeDur (.ok t) sess user (p0 :: rest) fb
        = ((some p0, pyStrip t), { sess with previous_place_id := some p0.place_id }) := by
    intro p0 rest fb henr hcase
    rw [choose_place_success routeDur t sess user p0 rest fb hlat hlon hors henr]
    rcases hcase with hfb | hprev
    · rw [if_neg (by rw [hfb]; simp)]
    · rw [if_neg (by rw [hprev]; simp)]
  refine ⟨?_, ?_, ?_, hdefault, ?_⟩
  · intro fb
    exact ⟨rfl, by decide⟩
  · intro p0 rest fb henr
    exact ⟨choose_place_noEnrich routeDur t sess user p0 rest fb hlat hlon hors henr,
      by decide⟩
  · intro p0 rest fb prev p henr hfb hprev hfind
    have hsel : choose_place routeDur (.ok t) sess user (p0 :: rest) fb
        = ((some p, pyStrip t), { sess with previous_place_id := some p.place_id }) := by
      rw [choose_place_success routeDur t sess user p0 rest fb hlat hlon hors henr]
      rw [if_pos (by rw [hfb, hprev]; rfl)]
      rw [hprev]
      dsimp only [Option.getD]
      rw [hfind]
    have hp := List.find?_some hfind
    have hne : p.place_id ≠ prev := by
      intro he
      rw [he] at hp
      simp at hp
    obtain ⟨pre, post, hsplit, hpre⟩ := find?_split _ _ _ hfind
    refine ⟨hsel, hne, pre, post, hsplit, ?_⟩
    intro q hq
    have := hpre q hq
    simpa using this
  · intro p1 p2 rest fb2 h12 hfb2 henr
    have hfirst := hdefault p1 (p2 :: rest) none henr (Or.inl rfl)
    have hsess1 : (choose_place routeDur (.ok t) sess user (p1 :: p2 :: rest) none).2
        = { sess with previous_place_id := some p1.place_id } := by rw [hfirst]
    have hfind2 : (p1 :: p2 :: rest).find? (fun q => !(q.place_id == p1.place_id))
        = some p2 := by
      have hb2 : (p2.place_id == p1.place_id) = false :=
        beq_eq_false_iff_ne.mpr (Ne.symm h12)
      simp [List.find?_cons, hb2]
    have hsecond : (choose_place routeDur (.ok t)
        { sess with previous_place_id := some p1.place_id }
        user (p1 :: p2 :: rest) fb2).1.1 = some p2 := by
      rw [choose_place_success routeDur t { sess with previous_place_id := some p1.place_id }
        user p1 (p2 :: rest) fb2 hlat hlon
        (show ({ sess with previous_place_id := some p1.place_id } : Sess).ors_client = true
          from hors)
        (show enrichPlaces routeDur
            (user.location_lon.getD 0, user.location_lat.getD 0)
            (({ sess with previous_place_id := some p1.place_id } : Sess).top_interest.getD
              "activity") (p1 :: p2 :: rest) ≠ [] from henr)]
      rw [if_pos (by rw [hfb2]; rfl)]
      dsimp only [Option.getD]
      rw [hfind2]
    refine ⟨by rw [hfirst], ?_, Ne.symm h12⟩
    rw [hsess1]
    exact hsecond

/-- Concrete candidates for the C5 scenario of the spec example. -/
def placeAW : PlaceIn :=
  { place_id := some "a", name := some "Cafe X", lat := some 13
  , lng := some 77, rating := some (9/2), user_ratings_total := some 120
  , vicinity := some "MG Road", ptype := none }

/-- Second concrete candidate. -/
def placeBW : PlaceIn :=
  { place_id := some "b", name := some "Cafe Y", lat := some 14
  , lng := some 76, rating := some (21/5), user_ratings_total := some 80
  , vicinity := some "Church Street", ptype := none }

/-- A session with the routing client present and no previous id. -/
def sessW : Sess :=
  { ors_client := true, top_interest := some "food", previous_place_id := none }

/-- Concrete instantiation of C5: the spec's example scenario — first
call picks id `"a"`, the second call (after a feedback note) picks id
`"b"`. -/
theorem claim_C5_witness :
    (choose_place (fun _ _ => some 10) (.ok "Nice cafe!") sessW userW [placeAW, placeBW]
        none).1.1 = some placeAW ∧
    (choose_place (fun _ _ => some 10) (.ok "Nice cafe!")
        (choose_place (fun _ _ => some 10) (.ok "Nice cafe!") sessW userW [placeAW, placeBW]
          none).2
        userW [placeAW, placeBW] (some "try another")).1.1 = some placeBW ∧
    placeBW.place_id ≠ placeAW.place_id := by
  have hlat : truthyNum userW.location_lat = true := by
    simp [truthyNum, userW]
  have hlon : truthyNum userW.location_lon = true := by
    simp [truthyNum, userW]
  have henr : enrichPlaces (fun _ _ => some 10)
      (userW.location_lon.getD 0, userW.location_lat.getD 0)
      (sessW.top_interest.getD "activity") [placeAW, placeBW] ≠ [] := by
    norm_num [enrichPlaces, enrichOne, placeAW, placeBW, List.enum, List.enumFrom,
      List.filterMap]
    simp
  exact (claim_C5 (fun _ _ => some 10) "Nice cafe!" sessW userW hlat hlon rfl).2.2.2.2
    placeAW placeBW [] (some "try another") (by decide) rfl henr
